import Mathlib

/-!
Verification of the filtor forensic risk-scoring engine.

This file gives a shallow embedding, in Lean 4, of the parts of the
repository that the checked claims are about:

* `src/backend/indexing.py` — `calculate_risk_score`, `get_risk_level`;
* `src/backend/analyse/forensic.py` — `DataExfiltrationAnalyzer`
  (`analyze_file` score aggregation, `_calculate_risk_level`,
  `_calculate_entropy`, the double-extension check of
  `_scan_file_content`);
* `src/backend/analyse/slitfiledetector.py` — `SplitFileDetector._entropy`;
* `src/backend/analyse/deep_forensics.py` — `DeepFileAnalyzer`
  (`FILE_SIGNATURES`, `_identify_file_type`, `_match_signatures`,
  `_analyze_office_deep`, `_analyze_archive_deep`,
  `_detect_hidden_content`, `_security_checks`,
  `_detect_risk_indicators`, `analyze`).

Python `float` arithmetic on scores is modelled with `ℚ` (all score
arithmetic in the source stays well within exactly-representable
territory); the transcendental entropy computation is modelled with `ℝ`.
External collaborators (the `magic`/`mimetypes` libraries, `zipfile`,
`tarfile`, `exiftool`, the filesystem) are modelled as explicit inputs
packaged in environment records; a Python exception raised by such a
collaborator is an `Except.error` carrying `str(e)`.
-/

namespace Filtor

/-! ## Python-faithful helpers -/

/-- Python 3 `round(q)`: round to the nearest integer, ties to the even
integer (banker's rounding). -/
def pyRound (q : ℚ) : ℤ :=
  if q - (⌊q⌋ : ℚ) < 1/2 then ⌊q⌋
  else if 1/2 < q - (⌊q⌋ : ℚ) then ⌊q⌋ + 1
  else if Even ⌊q⌋ then ⌊q⌋ else ⌊q⌋ + 1

/-- Python `round(q, nd)`: round to `nd` decimal places. -/
def pyRoundTo (nd : ℕ) (q : ℚ) : ℚ :=
  (pyRound (q * (10 : ℚ) ^ nd) : ℚ) / (10 : ℚ) ^ nd

theorem pyRound_le {q : ℚ} {n : ℤ} (h : q ≤ (n : ℚ)) : pyRound q ≤ n := by
  have hfl : ⌊q⌋ ≤ n := by
    have := Int.floor_le_floor h
    simpa using this
  unfold pyRound
  split_ifs with h1 h2 h3
  · exact hfl
  all_goals {
    first
    | exact hfl
    | -- the rounded value is `⌊q⌋ + 1`, and then `q ≥ ⌊q⌋ + 1/2`
      have hhalf : (⌊q⌋ : ℚ) + 1/2 ≤ q := by linarith [not_lt.mp h1]
      have hlt : ⌊q⌋ < n := by
        by_contra hcon
        have hn : n ≤ ⌊q⌋ := not_lt.mp hcon
        have hq : (n : ℚ) ≤ (⌊q⌋ : ℚ) := by exact_mod_cast hn
        linarith
      omega }

theorem le_pyRound {q : ℚ} {n : ℤ} (h : (n : ℚ) ≤ q) : n ≤ pyRound q := by
  have hfl : n ≤ ⌊q⌋ := Int.le_floor.mpr h
  unfold pyRound
  split_ifs <;> omega

theorem pyRoundTo_nonneg {nd : ℕ} {q : ℚ} (h : 0 ≤ q) : 0 ≤ pyRoundTo nd q := by
  unfold pyRoundTo
  have hp : (0 : ℚ) < (10 : ℚ) ^ nd := by positivity
  have h0 : ((0 : ℤ) : ℚ) ≤ q * (10 : ℚ) ^ nd := by positivity
  have := le_pyRound h0
  have : (0 : ℚ) ≤ (pyRound (q * (10 : ℚ) ^ nd) : ℚ) := by exact_mod_cast this
  positivity

theorem pyRoundTo_le {nd : ℕ} {q : ℚ} {n : ℤ} (h : q ≤ (n : ℚ)) :
    pyRoundTo nd q ≤ (n : ℚ) := by
  unfold pyRoundTo
  have hp : (0 : ℚ) < (10 : ℚ) ^ nd := by positivity
  have hmul : q * (10 : ℚ) ^ nd ≤ ((n * (10 : ℚ) ^ nd : ℚ)) := by
    exact mul_le_mul_of_nonneg_right h (le_of_lt hp)
  have hcast : q * (10 : ℚ) ^ nd ≤ ((n * (10 ^ nd : ℤ) : ℤ) : ℚ) := by push_cast; linarith
  have hle := pyRound_le hcast
  have hle' : (pyRound (q * (10 : ℚ) ^ nd) : ℚ) ≤ ((n * (10 ^ nd : ℤ) : ℤ) : ℚ) := by
    exact_mod_cast hle
  rw [div_le_iff₀ hp]
  push_cast at hle' ⊢
  linarith

/-- Model of Python's `needle in hay` on byte/character sequences:
a linear scan testing `needle` as a prefix of every suffix of `hay`. -/
def containsSeq {α : Type} [BEq α] : List α → List α → Bool
  | needle, [] => needle.isEmpty
  | needle, hay@(_ :: t) => needle.isPrefixOf hay || containsSeq needle t

/-- Model of Python's `hay.rfind(needle)`: the greatest index at which
`needle` occurs in `hay`, or `none` when it does not occur. -/
def rfindSeq {α : Type} [BEq α] : List α → List α → Option ℕ
  | needle, [] => if needle.isEmpty then some 0 else none
  | needle, hay@(_ :: t) =>
    match rfindSeq needle t with
    | some i => some (i + 1)
    | none => if needle.isPrefixOf hay then some 0 else none

theorem isPrefixOf_eq_true_iff {α : Type} [DecidableEq α] :
    ∀ (n h : List α), n.isPrefixOf h = true ↔ ∃ t, h = n ++ t
  | [], h => by simp [List.isPrefixOf]
  | a :: n, [] => by simp [List.isPrefixOf]
  | a :: n, b :: h => by
    simp only [List.isPrefixOf, Bool.and_eq_true, beq_iff_eq]
    constructor
    · rintro ⟨rfl, hp⟩
      obtain ⟨t, rfl⟩ := (isPrefixOf_eq_true_iff n h).mp hp
      exact ⟨t, rfl⟩
    · rintro ⟨t, ht⟩
      cases ht
      exact ⟨rfl, (isPrefixOf_eq_true_iff n (n ++ t)).mpr ⟨t, rfl⟩⟩

theorem containsSeq_eq_true_iff {α : Type} [DecidableEq α] :
    ∀ (n h : List α), containsSeq n h = true ↔ ∃ s t, h = s ++ n ++ t
  | n, [] => by
    simp only [containsSeq, List.isEmpty_iff]
    constructor
    · rintro rfl; exact ⟨[], [], rfl⟩
    · rintro ⟨s, t, ht⟩
      rcases List.append_eq_nil.mp (List.append_eq_nil.mp ht.symm).1 with ⟨-, h2⟩
      exact h2
  | n, b :: h => by
    simp only [containsSeq, Bool.or_eq_true, isPrefixOf_eq_true_iff,
      containsSeq_eq_true_iff n h]
    constructor
    · rintro (⟨t, ht⟩ | ⟨s, t, ht⟩)
      · exact ⟨[], t, by simpa using ht⟩
      · exact ⟨b :: s, t, by simp [ht]⟩
    · rintro ⟨s, t, ht⟩
      cases s with
      | nil => exact Or.inl ⟨t, by simpa using ht⟩
      | cons x s =>
        right
        refine ⟨s, t, ?_⟩
        have := ht
        simp only [List.cons_append] at this
        exact (List.cons.injEq .. ▸ this).2

/-- An occurrence of `n` as the length-`n.length` slice of `h` at
position `i` yields `containsSeq n h`. -/
theorem containsSeq_of_slice {α : Type} [DecidableEq α] {n h : List α} (i : ℕ)
    (hs : n = (h.drop i).take n.length) : containsSeq n h = true := by
  rw [containsSeq_eq_true_iff]
  refine ⟨h.take i, (h.drop i).drop n.length, ?_⟩
  conv_lhs => rw [← List.take_append_drop i h]
  rw [List.append_assoc]
  congr 1
  conv_lhs => rw [← List.take_append_drop n.length (h.drop i)]
  rw [← hs]

/-- Conversely, every occurrence is a slice. -/
theorem slice_of_containsSeq {α : Type} [DecidableEq α] {n h s t : List α}
    (ht : h = s ++ n ++ t) : n = (h.drop s.length).take n.length := by
  subst ht
  rw [List.append_assoc, List.drop_left, List.take_left]

/-- Python's `needle in hay` for strings. `strContains hay needle` is
`needle in hay`. -/
def strContains (hay needle : String) : Bool :=
  containsSeq needle.data hay.data

/-- Python's `hay.endswith(needle)` for strings. -/
def strEndsWith (hay needle : String) : Bool :=
  needle.data.reverse.isPrefixOf hay.data.reverse

/-- `os.path.basename`: the component after the last `/`. -/
def baseName (p : String) : String :=
  ⟨((p.data.reverse.takeWhile (fun c => c ≠ '/')).reverse)⟩

/-- `pathlib.Path(p).suffix.lower()`: the lower-cased extension (with the
dot) of the final component, `""` when there is none.  Mirrors pathlib:
the dot must be neither the first nor the last character of the name. -/
def pathSuffixLower (p : String) : String :=
  let name := (baseName p).data
  let revIdx := name.reverse.findIdx (fun c => c = '.')
  if revIdx = 0 ∨ name.length ≤ revIdx + 1 then ""
  else ⟨(name.drop (name.length - 1 - revIdx)).map Char.toLower⟩

/-- Python `s.lower()` (ASCII-adequate model). -/
def strLower (s : String) : String := ⟨s.data.map Char.toLower⟩

theorem slice_zero_pad (n A : List ℕ) (i : ℕ) (hi : i < A.length) {j : ℕ} (hj : n.length ≤ j) :
    ((A ++ List.replicate j 0).drop i).take n.length
      = (A.drop i).take n.length ++ List.replicate (n.length - (A.length - i)) 0 := by
  rw [List.drop_append_eq_append_drop, Nat.sub_eq_zero_of_le (le_of_lt hi), List.drop_zero,
    List.take_append_eq_append_take, List.take_replicate, List.length_drop]
  congr 2
  omega

theorem not_replicate_zero_of_any {n : List ℕ} (hnz : n.any (fun b => b ≠ 0) = true)
    {j : ℕ} : n ≠ List.replicate j 0 := by
  intro hrep
  simp only [List.any_eq_true, decide_eq_true_eq] at hnz
  obtain ⟨b, hb, hbne⟩ := hnz
  rw [hrep] at hb
  exact hbne (List.eq_of_mem_replicate hb)

/-- Occurrences of a not-all-zero pattern in `A` followed by a run of at
least `n.length` zeros do not depend on the length of the run. -/
theorem containsSeq_append_replicate_zero (n A : List ℕ) {k m : ℕ}
    (hm : n.length ≤ m) (hk : m ≤ k) (hnz : n.any (fun b => b ≠ 0) = true) :
    containsSeq n (A ++ List.replicate k 0) = containsSeq n (A ++ List.replicate m 0) := by
  apply Bool.eq_iff_iff.mpr
  constructor
  · intro hc
    obtain ⟨s, t, ht⟩ := (containsSeq_eq_true_iff _ _).mp hc
    have hslice := slice_of_containsSeq ht
    by_cases hi : s.length < A.length
    · have hsm : n = ((A ++ List.replicate m 0).drop s.length).take n.length := by
        rw [slice_zero_pad n A s.length hi hm, ← slice_zero_pad n A s.length hi (hm.trans hk)]
        exact hslice
      exact containsSeq_of_slice s.length hsm
    · exfalso
      have hrep : n = List.replicate (min n.length (k - (s.length - A.length))) 0 := by
        conv_lhs => rw [hslice]
        rw [List.drop_append_eq_append_drop, List.drop_eq_nil_of_le (not_lt.mp hi),
          List.nil_append, List.drop_replicate, List.take_replicate]
      exact not_replicate_zero_of_any hnz hrep
  · intro hc
    obtain ⟨s, t, ht⟩ := (containsSeq_eq_true_iff _ _).mp hc
    apply (containsSeq_eq_true_iff _ _).mpr
    refine ⟨s, t ++ List.replicate (k - m) 0, ?_⟩
    have hsplit : A ++ List.replicate k 0 = (A ++ List.replicate m 0) ++ List.replicate (k - m) 0 := by
      rw [List.append_assoc, ← List.replicate_add]
      congr 2
      omega
    rw [hsplit, ht]
    simp [List.append_assoc]

/-! ## deep_forensics.py — catalog and data model -/

namespace DeepForensics

/-- `DeepFileAnalyzer.FILE_SIGNATURES` (deep_forensics.py lines 42-57), in
source (insertion) order: category → list of byte-prefix signatures. -/
def FILE_SIGNATURES : List (String × List (List ℕ)) :=
  [("pdf", [[0x25, 0x50, 0x44, 0x46]]),
   ("zip", [[0x50, 0x4B, 0x03, 0x04], [0x50, 0x4B, 0x05, 0x06], [0x50, 0x4B, 0x07, 0x08]]),
   ("rar", [[0x52, 0x61, 0x72, 0x21, 0x1a, 0x07]]),
   ("gzip", [[0x1f, 0x8b]]),
   ("bzip2", [[0x42, 0x5A, 0x68]]),
   ("7z", [[0x37, 0x7a, 0xbc, 0xaf, 0x27, 0x1c]]),
   ("png", [[0x89, 0x50, 0x4E, 0x47, 0x0D, 0x0A, 0x1A, 0x0A]]),
   ("jpeg", [[0xff, 0xd8, 0xff]]),
   ("gif", [[0x47, 0x49, 0x46, 0x38, 0x37, 0x61], [0x47, 0x49, 0x46, 0x38, 0x39, 0x61]]),
   ("exe", [[0x4D, 0x5A]]),
   ("elf", [[0x7f, 0x45, 0x4C, 0x46]]),
   ("sqlite", [[0x53, 0x51, 0x4C, 0x69, 0x74, 0x65, 0x20, 0x66, 0x6F, 0x72, 0x6D,
                0x61, 0x74, 0x20, 0x33, 0x00]]),
   ("office_old", [[0xd0, 0xcf, 0x11, 0xe0, 0xa1, 0xb1, 0x1a, 0xe1]]),
   ("office_new", [[0x50, 0x4B, 0x03, 0x04]])]

/-- `DeepFileAnalyzer.DANGEROUS_EXTENSIONS` (deep_forensics.py lines 60-63). -/
def DANGEROUS_EXTENSIONS : List String :=
  [".exe", ".dll", ".so", ".dylib", ".sys", ".bat", ".cmd", ".ps1",
   ".vbs", ".js", ".jar", ".app", ".deb", ".rpm", ".msi", ".scr"]

/-- Record of `_analyze_office_deep`'s returned dict (lines 249-258).
The `metadata`, `external_links` and `content_summary` values come from
XML parsing of zip members; their contents are supplied by the
environment, but *when* they are filled in follows the source. -/
structure OfficeAnalysis where
  format : String := "unknown"
  has_macros : Bool := false
  macro_details : List String := []
  embedded_objects : List String := []
  external_links : List String := []
  metadata : List (String × String) := []
  content_summary : List (String × ℕ) := []
  suspicious_elements : List String := []
  error : Option String := none
deriving DecidableEq

/-- One entry of `zipfile.ZipFile.infolist()` as used by
`_analyze_archive_deep`: name, declared uncompressed and compressed
sizes, and the per-entry encryption flag bit. -/
structure ZipInfoEntry where
  filename : String
  file_size : ℕ
  compress_size : ℕ
  flag_encrypted : Bool
deriving DecidableEq

/-- One entry of `tarfile.getmembers()` as used by `_analyze_archive_deep`. -/
structure TarMember where
  name : String
  size : ℕ
deriving DecidableEq

/-- Record of `_analyze_archive_deep`'s returned dict (lines 390-400).
`file_types` is the per-extension histogram (a Python dict in insertion
order). -/
structure ArchiveAnalysis where
  type_tag : Option String := none
  file_count : ℕ := 0
  total_size : ℕ := 0
  encrypted : Bool := false
  suspicious_files : List String := []
  file_types : List (String × ℕ) := []
  deep_nesting : Bool := false
  compression_ratio : ℚ := 0
  file_list : List String := []
  error : Option String := none
deriving DecidableEq

/-- Fields of `_analyze_pdf_deep`'s dict that the orchestrator, scorer and
security checks read.  The PDF analyzer's internals are not needed by any
claim, so the record is supplied by the environment. -/
structure PdfAnalysis where
  has_javascript : Bool := false
  encrypted : Bool := false
  error : Option String := none
deriving DecidableEq

/-- Fields of `_analyze_image_deep`'s dict read downstream (environment-
supplied; internals not needed by any claim). -/
structure ImageAnalysis where
  gps_location : Bool := false
  error : Option String := none
deriving DecidableEq

/-- Fields of `_analyze_database_deep`'s dict read downstream
(environment-supplied; internals not needed by any claim). -/
structure DatabaseAnalysis where
  sensitive_tables : List String := []
  error : Option String := none
deriving DecidableEq

/-- Fields of `_analyze_executable_deep`'s dict read downstream
(environment-supplied; internals not needed by any claim). -/
structure ExecutableAnalysis where
  suspicious_indicators : List String := []
  error : Option String := none
deriving DecidableEq

/-- Fields of `_analyze_text_deep`'s dict read downstream (environment-
supplied; internals not needed by any claim).  `secrets_found` keeps one
opaque entry per secret record. -/
structure TextAnalysis where
  obfuscation_score : ℕ := 0
  secrets_found : List String := []
  error : Option String := none
deriving DecidableEq

/-- `result.findings`: category key present iff that per-type analyzer
ran (`analyze`, lines 88-107). -/
structure FindingsMap where
  pdf : Option PdfAnalysis := none
  office : Option OfficeAnalysis := none
  archive : Option ArchiveAnalysis := none
  image : Option ImageAnalysis := none
  database : Option DatabaseAnalysis := none
  executable : Option ExecutableAnalysis := none
  text : Option TextAnalysis := none
deriving DecidableEq

/-- Filesystem metadata from `os.stat` (values environment-supplied). -/
structure FsMeta where
  size : ℕ := 0
  created : String := ""
  modified : String := ""
  accessed : String := ""
  permissions : String := ""
  inode : ℕ := 0
deriving DecidableEq

/-- `_extract_all_metadata`'s dict (lines 836-840): the `filesystem`
entry is filled in iff `os.stat` succeeds; the two external tools yield
environment-supplied enrichment or nothing. -/
structure MetadataExtracted where
  filesystem : Option FsMeta := none
  file_command : Option String := none
  exiftool : List (String × String) := []
deriving DecidableEq

/-- `_detect_hidden_content`'s dict (lines 878-883), plus the keys the
function adds on the way (`signatures`, `trailing_bytes`, `error`). -/
structure HiddenContent where
  alternate_data_streams : List String := []
  trailing_data : Bool := false
  trailing_bytes : Option ℕ := none
  embedded_files : List (String × ℕ) := []
  polyglot : Bool := false
  signatures : Option (List String) := none
  error : Option String := none
deriving DecidableEq

/-- `_analyze_file_signature`'s dict (lines 151-156); the `hex`/`ascii`
presentation strings are kept as the raw 16-byte header. -/
structure SigRecord where
  header16 : List ℕ := []
  sig_matches : List String := []
  extension : String := ""
deriving DecidableEq

/-- `DeepAnalysisResult` (deep_forensics.py lines 24-36). -/
structure DeepResult where
  filepath : String := ""
  file_type : String := "unknown"
  analysis_depth : String := "DEEP"
  findings : FindingsMap := {}
  security_issues : List String := []
  metadata_extracted : MetadataExtracted := {}
  hidden_content : HiddenContent := {}
  risk_indicators : List String := []
  file_signature : Option SigRecord := none
  timestamp : String := ""
deriving DecidableEq

/-- Everything the analyzer obtains from outside (filesystem, `zipfile`,
`tarfile`, `mimetypes`, external tools) for one `analyze` call, plus the
opaque results of the per-type analyzers whose internals no claim needs. -/
structure Env where
  filepath : String := ""
  file_exists : Bool := true
  readOk : Bool := true
  readErr : String := ""
  content : List ℕ := []
  mimeGuess : Option String := none
  statOk : Bool := true
  fsMeta : FsMeta := {}
  fileCmd : Option String := none
  exiftool : List (String × String) := []
  is_zipfile : Bool := false
  zipNamelist : Except String (List String) := .ok []
  coreXml : List (String × String) := []
  relsLinks : List String := []
  wordSummary : List (String × ℕ) := []
  xlSummary : List (String × ℕ) := []
  pptSummary : List (String × ℕ) := []
  zipInfolist : Except String (List ZipInfoEntry) := .ok []
  tarMembers : Except String (List TarMember) := .ok []
  pdfA : PdfAnalysis := {}
  imageA : ImageAnalysis := {}
  dbA : DatabaseAnalysis := {}
  execA : ExecutableAnalysis := {}
  textA : TextAnalysis := {}
  size_bytes : ℕ := 0
  recently_modified : Bool := false
  timestamp : String := ""

/-- `_identify_file_type` (lines 121-143): first matching byte-prefix
signature over the 16-byte header wins, in catalog order; otherwise fall
back to the `mimetypes` guess or an `unknown (ext: …)` string; any I/O
failure yields `"error"`. -/
def identify_file_type (readOk : Bool) (content : List ℕ) (extLower : String)
    (mimeGuess : Option String) : String :=
  if readOk = false then "error"
  else
    match FILE_SIGNATURES.find? (fun p => p.2.any (fun sig => sig.isPrefixOf (content.take 16))) with
    | some p => p.1
    | none =>
      match mimeGuess with
      | some m => m
      | none => "unknown (ext: " ++ extLower ++ ")"

/-- `_match_signatures` (lines 160-167): every catalog signature that is
a prefix of the header contributes its category, in catalog order. -/
def match_signatures (header : List ℕ) : List String :=
  FILE_SIGNATURES.flatMap (fun p => (p.2.filter (fun sig => sig.isPrefixOf header)).map (fun _ => p.1))

/-- `_analyze_file_signature` (lines 145-158): `{}` on read failure. -/
def analyze_file_signature (env : Env) : Option SigRecord :=
  if env.readOk then
    some { header16 := env.content.take 16,
           sig_matches := match_signatures (env.content.take 64),
           extension := pathSuffixLower env.filepath }
  else none

/-- `_analyze_office_deep` (lines 247-319).  The body is one `try` block:
a non-zip file takes the OLE2 early return; a `zipfile` exception while
opening/listing is caught and recorded in the record's `error` field,
with the partially-filled fields (here `format`, set before the `with`
block) kept. -/
def analyze_office_deep (is_zip : Bool) (namelist : Except String (List String))
    (coreXml : List (String × String)) (relsLinks : List String)
    (wordSummary xlSummary pptSummary : List (String × ℕ)) : OfficeAnalysis :=
  if is_zip = false then
    { format := "OLE2 (ancien format)",
      suspicious_elements := ["Ancien format Office (plus risqué)"] }
  else
    match namelist with
    | .error e => { format := "OOXML (moderne)", error := some e }
    | .ok files =>
      let vba := files.filter (fun f => strContains f "vbaProject" || strEndsWith f ".bin")
      let embedded := files.filter (fun f => strContains (strLower f) "embeddings" || strContains f "oleObject")
      { format := "OOXML (moderne)",
        has_macros := vba.isEmpty = false,
        macro_details := vba,
        embedded_objects := embedded,
        external_links := if files.any (fun f => strEndsWith f ".xml.rels") then relsLinks else [],
        metadata := if files.contains "docProps/core.xml" then coreXml else [],
        content_summary :=
          if files.any (fun f => strContains f "word/") then wordSummary
          else if files.any (fun f => strContains f "xl/") then xlSummary
          else if files.any (fun f => strContains f "ppt/") then pptSummary
          else [],
        suspicious_elements :=
          (if vba.isEmpty = false then
            ["⚠️ Macros VBA détectées: " ++ toString vba.length] else []) ++
          (if embedded.isEmpty = false then
            ["Objets embarqués: " ++ toString embedded.length] else []) }

/-- Insertion-ordered histogram update, as a Python dict
`d[k] = d.get(k, 0) + 1`. -/
def bumpCount : List (String × ℕ) → String → List (String × ℕ)
  | [], k => [(k, 1)]
  | (a, n) :: rest, k => if a = k then (a, n + 1) :: rest else (a, n) :: bumpCount rest k

/-- `_analyze_archive_deep` (lines 388-457).  Note that
`compression_ratio` is only assigned on the ZIP path and only when the
total declared size is positive; it keeps its `0` initial value on every
other path (including the whole TAR branch and the fall-through). -/
def analyze_archive_deep (extLower : String) (is_zip : Bool)
    (infolist : Except String (List ZipInfoEntry))
    (tarlist : Except String (List TarMember)) : ArchiveAnalysis :=
  if extLower = ".zip" || is_zip then
    match infolist with
    | .error e => { type_tag := some "ZIP", error := some e }
    | .ok infos =>
      let total := (infos.map (fun i => i.file_size)).sum
      let compressed := (infos.map (fun i => i.compress_size)).sum
      { type_tag := some "ZIP",
        file_count := infos.length,
        total_size := total,
        encrypted := infos.any (fun i => i.flag_encrypted),
        suspicious_files :=
          (infos.filter (fun i => DANGEROUS_EXTENSIONS.contains (pathSuffixLower i.filename))).map
            (fun i => i.filename),
        file_types := infos.foldl (fun m i => bumpCount m (pathSuffixLower i.filename)) [],
        deep_nesting := infos.any (fun i => 5 < i.filename.data.count '/'),
        compression_ratio :=
          if 0 < total then pyRoundTo 3 ((compressed : ℚ) / (total : ℚ)) else 0,
        file_list := (infos.take 50).map (fun i => i.filename) }
  else if extLower = ".tar" ∨ extLower = ".gz" ∨ extLower = ".bz2" ∨ extLower = ".xz" then
    match tarlist with
    | .error e => { type_tag := some "TAR/GZIP", error := some e }
    | .ok members =>
      { type_tag := some "TAR/GZIP",
        file_count := members.length,
        total_size := (members.map (fun m => m.size)).sum,
        suspicious_files :=
          (members.filter (fun m => DANGEROUS_EXTENSIONS.contains (pathSuffixLower m.name))).map
            (fun m => m.name),
        file_types := members.foldl (fun acc m => bumpCount acc (pathSuffixLower m.name)) [],
        file_list := (members.take 50).map (fun m => m.name) }
  else {}

/-- The embedded-file offset scan of `_detect_hidden_content`
(lines 914-927): walk offsets from 0, record every catalog signature
matching at a nonzero offset, stop once the offset passes 10,000 or
fewer than five bytes remain. -/
def embeddedScanGo (totalLen : ℕ) : ℕ → List ℕ → List (String × ℕ)
  | _, [] => []
  | o, hay@(_ :: t) =>
    (if 0 < o ∧ o ≤ 10000 ∧ o + 4 < totalLen then
      FILE_SIGNATURES.flatMap
        (fun p => (p.2.filter (fun sig => sig.isPrefixOf hay)).map (fun _ => (p.1, o)))
     else []) ++ embeddedScanGo totalLen (o + 1) t

/-- The polyglot scan of `_detect_hidden_content` (lines 890-894): every
catalog signature found *anywhere in the whole content* (`sig in
content`) contributes its category. -/
def foundCats (content : List ℕ) : List String :=
  FILE_SIGNATURES.flatMap
    (fun p => (p.2.filter (fun sig => containsSeq sig content)).map (fun _ => p.1))

/-- The trailing-data check of `_detect_hidden_content` (lines 900-912):
the number of trailing bytes after the last `%%EOF` (PDF) or
end-of-central-directory record (ZIP), when beyond the tolerance. -/
def trailingInfo (content : List ℕ) : Option ℕ :=
  if [0x25, 0x50, 0x44, 0x46].isPrefixOf content then
    match rfindSeq [0x25, 0x25, 0x45, 0x4F, 0x46] content with
    | some eof => if eof + 10 < content.length then some (content.length - eof) else none
    | none => none
  else if [0x50, 0x4B].isPrefixOf content then
    match rfindSeq [0x50, 0x4B, 0x05, 0x06] content with
    | some eocd => if eocd + 22 < content.length then some (content.length - eocd - 22) else none
    | none => none
  else none

/-- `_detect_hidden_content` (lines 876-932).  The polyglot scan tests
`sig in content` over the whole read content; the 10,000 cap applies
only to the embedded-file offset loop.  A read failure is caught and
recorded in `error`, keeping the initialized fields. -/
def detect_hidden_content (readOk : Bool) (readErr : String) (content : List ℕ) : HiddenContent :=
  if readOk = false then { error := some readErr }
  else
    { polyglot := decide (1 < (foundCats content).dedup.length),
      signatures :=
        if 1 < (foundCats content).dedup.length then some (foundCats content).dedup else none,
      trailing_data := (trailingInfo content).isSome,
      trailing_bytes := trailingInfo content,
      embedded_files := embeddedScanGo content.length 0 content }

/-- `_extract_all_metadata` (lines 834-874): filesystem stat plus two
optional external tools; each piece degrades independently. -/
def extract_all_metadata (env : Env) : MetadataExtracted :=
  { filesystem := if env.statOk then some env.fsMeta else none,
    file_command := env.fileCmd,
    exiftool := env.exiftool }

/-- `_security_checks` (lines 934-996), in source order. -/
def security_checks (ext : String) (r : DeepResult) : List String :=
  (if DANGEROUS_EXTENSIONS.contains ext then ["⚠️ Dangerous extension: " ++ ext] else []) ++
  (match r.file_signature with
   | some s =>
     match s.sig_matches with
     | [] => []
     | expected :: _ =>
       if ext ≠ "" ∧ strContains ext expected = false then
         ["⚠️ Signature (" ++ expected ++ ") does not match extension (" ++ ext ++ ")"]
       else []
   | none => []) ++
  (match r.findings.office with
   | some o => if o.has_macros then ["⚠️ Document contains VBA macros (code execution risk)"] else []
   | none => []) ++
  (match r.findings.pdf with
   | some p => if p.has_javascript then ["⚠️ PDF contains JavaScript (exploitation risk)"] else []
   | none => []) ++
  (match r.findings.archive with
   | some a => if a.encrypted then ["⚠️ Archive protected by password"] else []
   | none => []) ++
  (match r.findings.pdf with
   | some p => if p.encrypted then ["⚠️ Encrypted PDF"] else []
   | none => []) ++
  (if r.hidden_content.polyglot then ["🚨 Polyglot file detected (multiple signatures)"] else []) ++
  (if r.hidden_content.trailing_data then ["⚠️ Data found after trailing EOCD/EOF marker"] else []) ++
  (if r.hidden_content.embedded_files.isEmpty = false then
    ["⚠️ " ++ toString r.hidden_content.embedded_files.length ++ " potentially embedded file(s)"]
   else []) ++
  (match r.findings.text with
   | some t =>
     (if 5 < t.obfuscation_score then
       ["⚠️ Potentially obfuscated script (score: " ++ toString t.obfuscation_score ++ ")"] else []) ++
     (if t.secrets_found.isEmpty = false then
       ["🚨 " ++ toString t.secrets_found.length ++ " secret(s) or credential(s) detected"] else [])
   | none => []) ++
  (match r.findings.executable with
   | some x =>
     if x.suspicious_indicators.isEmpty = false then
       ["⚠️ " ++ toString x.suspicious_indicators.length ++ " suspicious indicator(s) in executable"]
     else []
   | none => []) ++
  (match r.findings.image with
   | some i => if i.gps_location then ["⚠️ GPS coordinates found in image"] else []
   | none => [])

def SUSPICIOUS_NAMES : List String :=
  ["crack", "keygen", "patch", "hack", "exploit", "backdoor", "trojan", "virus", "malware"]

/-- Python `f"{q:.2f}"` for a nonnegative rational (cosmetic, message only). -/
def formatFixed2 (q : ℚ) : String :=
  let n := pyRound (q * 100)
  toString (n / 100) ++ "." ++ (if n % 100 < 10 then "0" else "") ++ toString (n % 100)

/-- `_detect_risk_indicators` (lines 998-1038), in source order.  The
indicator message for a suspicious compression ratio computes `1/ratio`
(line 1030); Python raises an uncaught `ZeroDivisionError` when the
(rounded or never-assigned) ratio is exactly `0`, which aborts the whole
`analyze` call — modelled as `Except.error`. -/
def detect_risk_indicators (env : Env) (r : DeepResult) : Except String (List String) :=
  let nameInds :=
    if SUSPICIOUS_NAMES.any (fun s => strContains (strLower (baseName env.filepath)) s) then
      ["Suspicious filename: " ++ strLower (baseName env.filepath)]
    else []
  let sizeInds :=
    if env.size_bytes = 0 then ["Empty file"]
    else if 1024 * 1024 * 1024 < env.size_bytes then
      ["Very large file: " ++ formatFixed2 ((env.size_bytes : ℚ) / (1024 * 1024 * 1024 : ℚ)) ++ " GB"]
    else []
  let timeInds := if env.recently_modified then ["Modified very recently (< 1h)"] else []
  let dbInds :=
    match r.findings.database with
    | some d =>
      if d.sensitive_tables.isEmpty = false then
        ["Database with " ++ toString d.sensitive_tables.length ++ " sensitive table(s)"]
      else []
    | none => []
  match r.findings.archive with
  | none => .ok (nameInds ++ sizeInds ++ timeInds ++ dbInds)
  | some a =>
    let countInds :=
      if 1000 < a.file_count then
        ["Archive with " ++ toString a.file_count ++ " files (potential zip bomb)"]
      else []
    if a.compression_ratio < 1/100 then
      if a.compression_ratio = 0 then .error "ZeroDivisionError: float division by zero"
      else
        .ok (nameInds ++ sizeInds ++ timeInds ++ countInds ++
          ["Very high compression ratio: " ++ toString (pyRound (1 / a.compression_ratio)) ++
           ":1 (possible zip bomb)"] ++ dbInds)
    else .ok (nameInds ++ sizeInds ++ timeInds ++ countInds ++ dbInds)

/-- The type dispatch of `analyze` (lines 88-107): substring tests on the
lower-cased identified type, first hit wins; the Office branch also
triggers on a `.docx`/`.xlsx`/`.pptx` fragment in the lower-cased path,
the database branch also on a raw `.db` path suffix. -/
def dispatch (env : Env) (ft : String) : FindingsMap :=
  if strContains (strLower ft) "pdf" then { pdf := some env.pdfA }
  else if strContains (strLower ft) "office"
      || [".docx", ".xlsx", ".pptx"].any (fun e => strContains (strLower env.filepath) e) then
    { office := some (analyze_office_deep env.is_zipfile env.zipNamelist env.coreXml
        env.relsLinks env.wordSummary env.xlSummary env.pptSummary) }
  else if strContains (strLower ft) "zip" || strContains (strLower ft) "archive" then
    { archive := some (analyze_archive_deep (pathSuffixLower env.filepath) env.is_zipfile
        env.zipInfolist env.tarMembers) }
  else if strContains (strLower ft) "image" then { image := some env.imageA }
  else if strContains (strLower ft) "database" || strEndsWith env.filepath ".db" then
    { database := some env.dbA }
  else if strContains (strLower ft) "executable" then { executable := some env.execA }
  else if strContains (strLower ft) "text" || strContains (strLower ft) "script" then
    { text := some env.textA }
  else {}

/-- `DeepFileAnalyzer.analyze` (lines 68-117): nonexistent path short-
circuits with only the error note; otherwise identify, dispatch once,
run the cross-cutting extractors, then security checks and risk
indicators.  Only `_detect_risk_indicators` can raise out of `analyze`
(nothing around it catches). -/
def analyze (env : Env) (depth : String) : Except String DeepResult :=
  if env.file_exists = false then
    .ok { filepath := env.filepath, file_type := "unknown", analysis_depth := depth,
          security_issues := ["Fichier inexistant"], timestamp := env.timestamp }
  else
    let ft := identify_file_type env.readOk env.content (pathSuffixLower env.filepath) env.mimeGuess
    let r1 : DeepResult :=
      { filepath := env.filepath, file_type := ft, analysis_depth := depth,
        findings := dispatch env ft,
        metadata_extracted := extract_all_metadata env,
        hidden_content := detect_hidden_content env.readOk env.readErr env.content,
        file_signature := analyze_file_signature env,
        timestamp := env.timestamp }
    match detect_risk_indicators env r1 with
    | .error e => .error e
    | .ok inds =>
      .ok { r1 with
        security_issues := security_checks (pathSuffixLower env.filepath) r1,
        risk_indicators := inds }

end DeepForensics

/-! ## indexing.py — batch scorer -/

namespace Indexing

/-- `indexing.get_risk_level` (indexing.py lines 46-50). -/
def get_risk_level (score : ℚ) : String :=
  if 70 ≤ score then "CRITICAL"
  else if 50 ≤ score then "HIGH"
  else if 25 ≤ score then "MEDIUM"
  else "LOW"

/-- `indexing.calculate_risk_score` (indexing.py lines 22-44). -/
def calculate_risk_score (r : DeepForensics.DeepResult) : ℚ :=
  min 100
    ((r.security_issues.length : ℚ) * 20 + (r.risk_indicators.length : ℚ) * 5 +
      (if r.hidden_content.polyglot then 40 else 0) +
      (match r.findings.text with
       | some t => (t.secrets_found.length : ℚ) * 30
       | none => 0) +
      (match r.findings.pdf with
       | some p => if p.has_javascript then 20 else 0
       | none => 0) +
      (match r.findings.office with
       | some o => if o.has_macros then 30 else 0
       | none => 0))

end Indexing

/-! ## forensic.py — standalone scanner -/

namespace Forensic

/-- `DataExfiltrationAnalyzer._calculate_risk_level`
(forensic.py lines 663-672). -/
def calculate_risk_level (score : ℚ) : String :=
  if 70 ≤ score then "CRITICAL"
  else if 50 ≤ score then "HIGH"
  else if 30 ≤ score then "MEDIUM"
  else "LOW"

/-- The score aggregation of `analyze_file` (forensic.py lines 58-144):
the twelve detector contributions are summed, capped at 100, then
rounded to one decimal for the returned `risk_score`. -/
def analyze_file_risk_score (contribs : List ℚ) : ℚ :=
  pyRoundTo 1 (min (contribs.sum) 100)

/-- `DataExfiltrationAnalyzer._calculate_entropy`
(forensic.py lines 710-718): byte-frequency histogram over the distinct
bytes in first-occurrence order (`dict.fromkeys`), Shannon entropy via
`p * log(p) / log(2)`. -/
noncomputable def calculate_entropy (data : List ℕ) : ℝ :=
  if data = [] then 0
  else
    -(((data.dedup).map (fun b =>
        ((data.count b : ℝ) / (data.length : ℝ)) *
          Real.log ((data.count b : ℝ) / (data.length : ℝ)) / Real.log 2)).sum)

/-- The lower-cased executable-like second extensions of the
double-extension regex `\.[a-z]{3,4}\.(exe|bat|ps1|vbs|js)$`
(forensic.py line 287). -/
def EXEC_EXTS : List (List Char) := ["exe", "bat", "ps1", "vbs", "js"].map String.data

def isLowerAlpha (c : Char) : Bool := decide ('a' ≤ c) && decide (c ≤ 'z')

/-- Does `l` match the whole regex `\.[a-z]{3,4}\.(exe|bat|ps1|vbs|js)$`,
starting at the head of `l` and consuming all of it? -/
def dexMatchHere : List Char → Bool
  | [] => false
  | x :: rest =>
    if x = '.' then
      EXEC_EXTS.any (fun e =>
        ((rest.take 3).length == 3 && (rest.take 3).all isLowerAlpha && rest.drop 3 == '.' :: e) ||
        ((rest.take 4).length == 4 && (rest.take 4).all isLowerAlpha && rest.drop 4 == '.' :: e))
    else false

/-- `re.search` of the double-extension pattern: try the match at every
suffix. -/
def scanDoubleExtension : List Char → Bool
  | [] => false
  | l@(_ :: t) => dexMatchHere l || scanDoubleExtension t

/-- The double-extension check of `_scan_file_content`
(forensic.py lines 285-289): the basename is lower-cased (line 280) and
searched with the regex; a match adds the `double_extension` finding. -/
def scan_double_extension (basename : String) : Bool :=
  scanDoubleExtension (strLower basename).data

end Forensic

/-! ## slitfiledetector.py -/

namespace SplitFile

/-- `SplitFileDetector._entropy` (slitfiledetector.py lines 24-29):
`Counter` histogram, `math.log2` per distinct byte value. -/
noncomputable def entropy (data : List ℕ) : ℝ :=
  if data = [] then 0
  else
    -(((data.dedup).map (fun b =>
        ((data.count b : ℝ) / (data.length : ℝ)) *
          Real.logb 2 ((data.count b : ℝ) / (data.length : ℝ)))).sum)

end SplitFile

/-! ## Entropy facts -/

theorem list_sum_nonpos : ∀ {l : List ℝ}, (∀ x ∈ l, x ≤ 0) → l.sum ≤ 0
  | [], _ => by simp
  | x :: t, h => by
    simp only [List.sum_cons]
    have h1 := h x (List.mem_cons_self x t)
    have h2 := list_sum_nonpos (fun y hy => h y (List.mem_cons_of_mem x hy))
    linarith

theorem dedup_toFinset (l : List ℕ) : l.dedup.toFinset = l.toFinset := by
  ext x
  simp

/-- The entropy sum re-indexed over the finset of occurring byte values. -/
theorem calculate_entropy_eq_finset_sum (data : List ℕ) (hne : data ≠ []) :
    Forensic.calculate_entropy data
      = -(∑ b ∈ data.toFinset,
          ((data.count b : ℝ) / (data.length : ℝ)) *
            Real.log ((data.count b : ℝ) / (data.length : ℝ)) / Real.log 2) := by
  unfold Forensic.calculate_entropy
  rw [if_neg hne, ← dedup_toFinset, List.sum_toFinset _ (List.nodup_dedup data)]

theorem sum_count_div_length (data : List ℕ) (hne : data ≠ []) :
    ∑ b ∈ data.toFinset, ((data.count b : ℝ) / (data.length : ℝ)) = 1 := by
  have hlen : 0 < data.length := List.length_pos.mpr hne
  rw [← Finset.sum_div]
  have h2 : ∑ b ∈ data.toFinset, data.count b = data.length := by
    rw [← dedup_toFinset, List.sum_toFinset _ (List.nodup_dedup data)]
    exact List.sum_map_count_dedup_eq_length data
  have h1 : ∑ b ∈ data.toFinset, (data.count b : ℝ) = (data.length : ℝ) := by
    rw [← Nat.cast_sum, h2]
  rw [h1, div_self]
  exact_mod_cast hlen.ne'

theorem calculate_entropy_nonneg (data : List ℕ) : 0 ≤ Forensic.calculate_entropy data := by
  unfold Forensic.calculate_entropy
  split_ifs with hne
  · exact le_refl 0
  · rw [neg_nonneg]
    apply list_sum_nonpos
    intro x hx
    simp only [List.mem_map] at hx
    obtain ⟨b, hb, rfl⟩ := hx
    have hmem : b ∈ data := List.mem_dedup.mp hb
    have hlen : 0 < data.length := List.length_pos.mpr (List.ne_nil_of_mem hmem)
    have hcnt : 0 < data.count b := List.count_pos_iff.mpr hmem
    have hp0 : (0 : ℝ) ≤ (data.count b : ℝ) / (data.length : ℝ) := by positivity
    have hp1 : (data.count b : ℝ) / (data.length : ℝ) ≤ 1 := by
      rw [div_le_one (by exact_mod_cast hlen)]
      exact_mod_cast List.count_le_length b data
    apply div_nonpos_iff.mpr
    refine Or.inr ⟨?_, Real.log_nonneg one_le_two⟩
    exact mul_nonpos_iff.mpr (Or.inl ⟨hp0, Real.log_nonpos hp0 hp1⟩)

theorem calculate_entropy_le_eight (data : List ℕ) (h : ∀ b ∈ data, b < 256) :
    Forensic.calculate_entropy data ≤ 8 := by
  by_cases hne : data = []
  · subst hne
    simp [Forensic.calculate_entropy]
  · rw [calculate_entropy_eq_finset_sum data hne]
    have hlen : 0 < data.length := List.length_pos.mpr hne
    have hlenR : (0 : ℝ) < (data.length : ℝ) := by exact_mod_cast hlen
    set T := data.toFinset with hT
    set w : ℕ → ℝ := fun b => (data.count b : ℝ) / (data.length : ℝ) with hw
    have hwpos : ∀ b ∈ T, 0 < w b := by
      intro b hb
      have hmem : b ∈ data := List.mem_toFinset.mp hb
      have hcnt : 0 < data.count b := List.count_pos_iff.mpr hmem
      have : (0 : ℝ) < (data.count b : ℝ) := by exact_mod_cast hcnt
      exact div_pos this hlenR
    have hw0 : ∀ b ∈ T, 0 ≤ w b := fun b hb => (hwpos b hb).le
    have hw1 : ∑ b ∈ T, w b = 1 := sum_count_div_length data hne
    have hjen : ∑ b ∈ T, w b • Real.log ((w b)⁻¹) ≤ Real.log (∑ b ∈ T, w b • (w b)⁻¹) :=
      (strictConcaveOn_log_Ioi.concaveOn).le_map_sum hw0 hw1
        (fun b hb => Set.mem_Ioi.mpr (inv_pos.mpr (hwpos b hb)))
    simp only [smul_eq_mul] at hjen
    have hsum1 : ∑ b ∈ T, w b * (w b)⁻¹ = (T.card : ℝ) := by
      rw [Finset.sum_congr rfl (fun b hb => mul_inv_cancel₀ (hwpos b hb).ne')]
      simp
    rw [hsum1] at hjen
    have hlhs : -(∑ b ∈ T, w b * Real.log (w b) / Real.log 2)
        = (∑ b ∈ T, w b * Real.log ((w b)⁻¹)) / Real.log 2 := by
      rw [← Finset.sum_div, ← neg_div, ← Finset.sum_neg_distrib]
      congr 1
      refine Finset.sum_congr rfl (fun b _ => ?_)
      rw [Real.log_inv]
      ring
    rw [hlhs]
    have hsub : T ⊆ Finset.range 256 := by
      intro b hb
      exact Finset.mem_range.mpr (h b (List.mem_toFinset.mp hb))
    have hcard : (T.card : ℝ) ≤ 256 := by
      have := Finset.card_le_card hsub
      rw [Finset.card_range] at this
      exact_mod_cast this
    have hcardpos : (0 : ℝ) < (T.card : ℝ) := by
      have : T.Nonempty := by
        obtain ⟨b, hb⟩ := List.exists_mem_of_ne_nil data hne
        exact ⟨b, List.mem_toFinset.mpr hb⟩
      exact_mod_cast Finset.card_pos.mpr this
    have hlog : Real.log (T.card : ℝ) ≤ Real.log 256 := Real.log_le_log hcardpos hcard
    have hstep : (∑ b ∈ T, w b * Real.log ((w b)⁻¹)) / Real.log 2
        ≤ Real.log 256 / Real.log 2 :=
      div_le_div_of_nonneg_right (hjen.trans hlog) (Real.log_pos one_lt_two).le
    refine hstep.trans ?_
    have h256 : (256 : ℝ) = 2 ^ (8 : ℕ) := by norm_num
    rw [h256, Real.log_pow]
    rw [mul_div_assoc, div_self (Real.log_pos one_lt_two).ne']
    norm_num

/-- An 8,192-byte buffer in which each of the 256 byte values occurs
exactly 32 times. -/
def uniformBuf : List ℕ := (List.replicate 32 (List.range 256)).flatten

theorem uniformBuf_length : uniformBuf.length = 8192 := by
  rw [uniformBuf, List.length_flatten, List.map_replicate, List.sum_replicate]
  simp

theorem uniformBuf_count {b : ℕ} (hb : b < 256) : uniformBuf.count b = 32 := by
  rw [uniformBuf, List.count_flatten, List.map_replicate, List.sum_replicate,
    List.count_eq_one_of_mem (List.nodup_range 256) (List.mem_range.mpr hb)]
  simp

theorem uniformBuf_toFinset : uniformBuf.toFinset = Finset.range 256 := by
  ext b
  simp only [uniformBuf, List.mem_toFinset, List.mem_flatten, List.mem_replicate,
    Finset.mem_range]
  constructor
  · rintro ⟨l, ⟨-, rfl⟩, hb⟩
    exact List.mem_range.mp hb
  · intro hb
    exact ⟨List.range 256, ⟨by norm_num, rfl⟩, List.mem_range.mpr hb⟩

theorem uniformBuf_ne_nil : uniformBuf ≠ [] := by
  apply List.ne_nil_of_length_pos
  rw [uniformBuf_length]
  norm_num

theorem calculate_entropy_uniformBuf : Forensic.calculate_entropy uniformBuf = 8 := by
  rw [calculate_entropy_eq_finset_sum uniformBuf uniformBuf_ne_nil, uniformBuf_toFinset]
  have hterm : ∀ b ∈ Finset.range 256,
      ((uniformBuf.count b : ℝ) / (uniformBuf.length : ℝ)) *
          Real.log ((uniformBuf.count b : ℝ) / (uniformBuf.length : ℝ)) / Real.log 2
        = (256 : ℝ)⁻¹ * Real.log (256 : ℝ)⁻¹ / Real.log 2 := by
    intro b hb
    rw [uniformBuf_count (Finset.mem_range.mp hb), uniformBuf_length]
    norm_num
  rw [Finset.sum_congr rfl hterm, Finset.sum_const, Finset.card_range]
  have h256 : (256 : ℝ) = 2 ^ (8 : ℕ) := by norm_num
  rw [Real.log_inv, h256, Real.log_pow]
  have hl2 : Real.log 2 ≠ 0 := (Real.log_pos one_lt_two).ne'
  field_simp
  ring

/-- The two entropy implementations compute the same real number. -/
theorem slit_entropy_eq (data : List ℕ) :
    SplitFile.entropy data = Forensic.calculate_entropy data := by
  unfold SplitFile.entropy Forensic.calculate_entropy
  split_ifs with hne
  · rfl
  · congr 1
    congr 1
    refine List.map_congr_left (fun b _ => ?_)
    rw [Real.logb, mul_div_assoc]

/-! ## Polyglot-detection facts -/

/-- Category `c` of the signature catalog occurs somewhere in `content`. -/
def catOccurs (c : String) (content : List ℕ) : Prop :=
  ∃ sigs, (c, sigs) ∈ DeepForensics.FILE_SIGNATURES ∧
    ∃ sig ∈ sigs, ∃ s t, content = s ++ sig ++ t

theorem mem_foundCats {c : String} {content : List ℕ} :
    c ∈ DeepForensics.foundCats content ↔ catOccurs c content := by
  unfold DeepForensics.foundCats catOccurs
  simp only [List.mem_flatMap, List.mem_map, List.mem_filter]
  constructor
  · rintro ⟨p, hp, sig, ⟨hsig, hcs⟩, rfl⟩
    obtain ⟨s, t, hst⟩ := (containsSeq_eq_true_iff sig content).mp hcs
    exact ⟨p.2, hp, sig, hsig, s, t, hst⟩
  · rintro ⟨sigs, hmem, sig, hsig, s, t, hst⟩
    exact ⟨(c, sigs), hmem, sig,
      ⟨hsig, (containsSeq_eq_true_iff sig content).mpr ⟨s, t, hst⟩⟩, rfl⟩

theorem one_lt_dedup_length_iff (l : List String) :
    1 < l.dedup.length ↔ ∃ a b, a ≠ b ∧ a ∈ l ∧ b ∈ l := by
  constructor
  · intro h1
    rcases hd : l.dedup with _ | ⟨x, tl⟩
    · rw [hd] at h1; simp at h1
    · rcases tl with _ | ⟨y, rest⟩
      · rw [hd] at h1; simp at h1
      · have hnd : l.dedup.Nodup := List.nodup_dedup l
        rw [hd] at hnd
        have hxy : x ≠ y := by
          intro hxy
          subst hxy
          simp at hnd
        have hx : x ∈ l := List.mem_dedup.mp (by rw [hd]; exact List.mem_cons_self x (y :: rest))
        have hy : y ∈ l := List.mem_dedup.mp
          (by rw [hd]; exact List.mem_cons_of_mem x (List.mem_cons_self y rest))
        exact ⟨x, y, hxy, hx, hy⟩
  · rintro ⟨a, b, hne, ha, hb⟩
    by_contra hle
    push_neg at hle
    have ha' : a ∈ l.dedup := List.mem_dedup.mpr ha
    have hb' : b ∈ l.dedup := List.mem_dedup.mpr hb
    rcases hd : l.dedup with _ | ⟨x, tl⟩
    · rw [hd] at ha'; simp at ha'
    · rcases tl with _ | ⟨y, rest⟩
      · rw [hd] at ha' hb'
        simp at ha' hb'
        exact hne (ha'.trans hb'.symm)
      · rw [hd] at hle; simp at hle

/-! ## Double-extension regex facts -/

theorem dexMatchHere_iff (l : List Char) :
    Forensic.dexMatchHere l = true ↔
      ∃ m e, l = '.' :: (m ++ '.' :: e) ∧ (m.length = 3 ∨ m.length = 4) ∧
        (∀ c ∈ m, Forensic.isLowerAlpha c = true) ∧ e ∈ Forensic.EXEC_EXTS := by
  cases l with
  | nil =>
    simp only [Forensic.dexMatchHere]
    constructor
    · intro hfalse; exact absurd hfalse (by simp)
    · rintro ⟨m, e, heq, -⟩; exact absurd heq (by simp)
  | cons x t =>
    by_cases hx : x = '.'
    · subst hx
      rw [show Forensic.dexMatchHere ('.' :: t)
          = Forensic.EXEC_EXTS.any (fun e =>
              ((t.take 3).length == 3 && (t.take 3).all Forensic.isLowerAlpha
                && t.drop 3 == '.' :: e) ||
              ((t.take 4).length == 4 && (t.take 4).all Forensic.isLowerAlpha
                && t.drop 4 == '.' :: e)) from by simp [Forensic.dexMatchHere]]
      rw [List.any_eq_true]
      constructor
      · rintro ⟨e, he, hcond⟩
        rw [Bool.or_eq_true] at hcond
        rcases hcond with hc | hc
        · simp only [Bool.and_eq_true, beq_iff_eq, List.all_eq_true] at hc
          obtain ⟨⟨hlen, hall⟩, hdrop⟩ := hc
          refine ⟨t.take 3, e, ?_, Or.inl hlen, hall, he⟩
          conv_lhs => rw [← List.take_append_drop 3 t]
          rw [hdrop]
        · simp only [Bool.and_eq_true, beq_iff_eq, List.all_eq_true] at hc
          obtain ⟨⟨hlen, hall⟩, hdrop⟩ := hc
          refine ⟨t.take 4, e, ?_, Or.inr hlen, hall, he⟩
          conv_lhs => rw [← List.take_append_drop 4 t]
          rw [hdrop]
      · rintro ⟨m, e, heq, hlen, hlow, he⟩
        have ht : t = m ++ '.' :: e := by
          have := heq
          simp only [List.cons.injEq] at this
          exact this.2
        refine ⟨e, he, ?_⟩
        rw [Bool.or_eq_true]
        rcases hlen with h3 | h4
        · left
          have htake : t.take 3 = m := by rw [ht, ← h3, List.take_left]
          have hdrop : t.drop 3 = '.' :: e := by rw [ht, ← h3, List.drop_left]
          simp [htake, hdrop, h3, List.all_eq_true]
          exact hlow
        · right
          have htake : t.take 4 = m := by rw [ht, ← h4, List.take_left]
          have hdrop : t.drop 4 = '.' :: e := by rw [ht, ← h4, List.drop_left]
          simp [htake, hdrop, h4, List.all_eq_true]
          exact hlow
    · rw [show Forensic.dexMatchHere (x :: t) = false from by simp [Forensic.dexMatchHere, hx]]
      constructor
      · intro hfalse; exact absurd hfalse (by simp)
      · rintro ⟨m, e, heq, -⟩
        exact absurd (by simpa using heq : x = '.' ∧ t = m ++ '.' :: e).1 hx

theorem scanDoubleExtension_iff (l : List Char) :
    Forensic.scanDoubleExtension l = true ↔
      ∃ a m e, l = a ++ '.' :: (m ++ '.' :: e) ∧ (m.length = 3 ∨ m.length = 4) ∧
        (∀ c ∈ m, Forensic.isLowerAlpha c = true) ∧ e ∈ Forensic.EXEC_EXTS := by
  induction l with
  | nil =>
    simp only [Forensic.scanDoubleExtension]
    constructor
    · intro hfalse; exact absurd hfalse (by simp)
    · rintro ⟨a, m, e, heq, -⟩
      exact absurd heq.symm (by simp)
  | cons x t ih =>
    rw [show Forensic.scanDoubleExtension (x :: t)
        = (Forensic.dexMatchHere (x :: t) || Forensic.scanDoubleExtension t) from rfl]
    rw [Bool.or_eq_true, dexMatchHere_iff, ih]
    constructor
    · rintro (⟨m, e, heq, hl, hlow, he⟩ | ⟨a, m, e, heq, hl, hlow, he⟩)
      · exact ⟨[], m, e, by simp [heq], hl, hlow, he⟩
      · refine ⟨x :: a, m, e, ?_, hl, hlow, he⟩
        simp [heq]
    · rintro ⟨a, m, e, heq, hl, hlow, he⟩
      cases a with
      | nil =>
        left
        exact ⟨m, e, by simpa using heq, hl, hlow, he⟩
      | cons y a' =>
        right
        have hya : x = y ∧ t = a' ++ '.' :: (m ++ '.' :: e) := by simpa using heq
        exact ⟨a', m, e, hya.2, hl, hlow, he⟩

/-! ## Claim theorems -/

/-- C1 (counterexample): the two level-derivation call sites do *not*
share the canonical threshold table of the claim.  At score 27 the
batch-indexing scorer returns MEDIUM (its MEDIUM threshold is 25, as the
claim states) but the standalone scanner returns LOW (its MEDIUM
threshold is 30), so the standalone scanner violates the claimed
`25 ≤ score < 50 → MEDIUM` rule. -/
theorem C1_counterexample :
    Indexing.get_risk_level 27 = "MEDIUM" ∧ Forensic.calculate_risk_level 27 = "LOW" := by
  constructor
  · unfold Indexing.get_risk_level
    norm_num
  · unfold Forensic.calculate_risk_level
    norm_num

/-- C1 (amended): both call sites derive the level purely from the
score with CRITICAL at `≥ 70` and HIGH at `[50, 70)` — in particular
70.0 maps to CRITICAL and 69.9 to HIGH in both — but the MEDIUM
threshold differs: the batch-indexing scorer uses 25 while the
standalone scanner uses 30, so scores in `[25, 30)` map to MEDIUM in the
former and LOW in the latter. -/
theorem C1_risk_level_thresholds (s : ℚ) :
    (70 ≤ s → Indexing.get_risk_level s = "CRITICAL" ∧
      Forensic.calculate_risk_level s = "CRITICAL") ∧
    (50 ≤ s → s < 70 → Indexing.get_risk_level s = "HIGH" ∧
      Forensic.calculate_risk_level s = "HIGH") ∧
    (25 ≤ s → s < 50 → Indexing.get_risk_level s = "MEDIUM") ∧
    (s < 25 → Indexing.get_risk_level s = "LOW") ∧
    (30 ≤ s → s < 50 → Forensic.calculate_risk_level s = "MEDIUM") ∧
    (s < 30 → Forensic.calculate_risk_level s = "LOW") := by
  unfold Indexing.get_risk_level Forensic.calculate_risk_level
  refine ⟨fun h => ⟨?_, ?_⟩, fun h1 h2 => ⟨?_, ?_⟩, fun h1 h2 => ?_, fun h => ?_,
    fun h1 h2 => ?_, fun h => ?_⟩ <;>
    (split_ifs <;> first | rfl | (exfalso; linarith))

/-- C1 (witness): the amended theorem applied at the boundary scores 70
and 69.9. -/
theorem C1_risk_level_thresholds_witness :
    (Indexing.get_risk_level 70 = "CRITICAL" ∧
      Forensic.calculate_risk_level 70 = "CRITICAL") ∧
    (Indexing.get_risk_level (699/10) = "HIGH" ∧
      Forensic.calculate_risk_level (699/10) = "HIGH") :=
  ⟨(C1_risk_level_thresholds 70).1 (by norm_num),
   (C1_risk_level_thresholds (699/10)).2.1 (by norm_num) (by norm_num)⟩

/-- C2: the standalone scanner's aggregate of non-negative per-detector
risk-point contributions is in `[0, 100]` (sum, cap at 100, round to one
decimal); ten `+30`-point contributions yield exactly 100; and the
batch-indexing scorer's result is in `[0, 100]` for every analysis
result. -/
theorem C2_score_clamped (contribs : List ℚ) (r : DeepForensics.DeepResult)
    (h : ∀ c ∈ contribs, 0 ≤ c) :
    (0 ≤ Forensic.analyze_file_risk_score contribs ∧
      Forensic.analyze_file_risk_score contribs ≤ 100) ∧
    Forensic.analyze_file_risk_score (List.replicate 10 30) = 100 ∧
    (0 ≤ Indexing.calculate_risk_score r ∧ Indexing.calculate_risk_score r ≤ 100) := by
  refine ⟨⟨?_, ?_⟩, ?_, ?_, ?_⟩
  · exact pyRoundTo_nonneg (le_min (List.sum_nonneg h) (by norm_num))
  · unfold Forensic.analyze_file_risk_score
    have h1 : min contribs.sum 100 ≤ ((100 : ℤ) : ℚ) := by
      push_cast
      exact min_le_right _ _
    have : pyRoundTo 1 (min contribs.sum 100) ≤ (((100 : ℤ) : ℚ)) := pyRoundTo_le h1
    push_cast at this
    exact this
  · unfold Forensic.analyze_file_risk_score
    rw [show (List.replicate 10 (30 : ℚ)).sum = 300 by
      rw [List.sum_replicate]; norm_num]
    rw [show min (300 : ℚ) 100 = 100 from by norm_num]
    unfold pyRoundTo pyRound
    rw [show (100 : ℚ) * 10 ^ 1 = 1000 from by norm_num]
    rw [show ⌊(1000 : ℚ)⌋ = 1000 from by norm_num]
    norm_num
  · unfold Indexing.calculate_risk_score
    refine le_min_iff.mpr ⟨by norm_num, ?_⟩
    obtain ⟨fp, ft, ad, ⟨fpdf, foff, farch, fimg, fdb, fex, ftxt⟩, si, me, hc, ri, fs, ts⟩ := r
    cases ftxt <;> cases fpdf <;> cases foff <;> dsimp only <;> split_ifs <;> positivity
  · exact min_le_left _ _

/-- C2 (witness): the bound theorem applied at ten +30 contributions and
the default (empty) analysis result. -/
theorem C2_score_clamped_witness :
    (0 ≤ Forensic.analyze_file_risk_score (List.replicate 10 30) ∧
      Forensic.analyze_file_risk_score (List.replicate 10 30) ≤ 100) ∧
    Forensic.analyze_file_risk_score (List.replicate 10 30) = 100 ∧
    (0 ≤ Indexing.calculate_risk_score {} ∧ Indexing.calculate_risk_score {} ≤ 100) :=
  C2_score_clamped (List.replicate 10 30) {}
    (fun c hc => by rw [List.eq_of_mem_replicate hc]; norm_num)

/-- C4: `_calculate_entropy` is the Shannon entropy of the byte
histogram: it is non-negative, at most 8 for byte-valued data, zero on
the empty input, equal to 8 (hence above 7.9) on an 8,192-byte buffer
with all 256 byte values uniformly distributed, and
`SplitFileDetector._entropy` computes the same function. -/
theorem C4_entropy_spec (data data2 : List ℕ) (h : ∀ b ∈ data, b < 256) :
    (0 ≤ Forensic.calculate_entropy data ∧ Forensic.calculate_entropy data ≤ 8) ∧
    Forensic.calculate_entropy [] = 0 ∧
    uniformBuf.length = 8192 ∧ (79 / 10 : ℝ) < Forensic.calculate_entropy uniformBuf ∧
    SplitFile.entropy data2 = Forensic.calculate_entropy data2 :=
  ⟨⟨calculate_entropy_nonneg data, calculate_entropy_le_eight data h⟩,
   by simp [Forensic.calculate_entropy],
   uniformBuf_length,
   by rw [calculate_entropy_uniformBuf]; norm_num,
   slit_entropy_eq data2⟩

/-- C4 (witness): the entropy theorem applied at the two-byte buffer
`[0, 255]`. -/
theorem C4_entropy_spec_witness :
    (0 ≤ Forensic.calculate_entropy [0, 255] ∧ Forensic.calculate_entropy [0, 255] ≤ 8) ∧
    Forensic.calculate_entropy [] = 0 ∧
    uniformBuf.length = 8192 ∧ (79 / 10 : ℝ) < Forensic.calculate_entropy uniformBuf ∧
    SplitFile.entropy [7] = Forensic.calculate_entropy [7] :=
  C4_entropy_spec [0, 255] [7] (by decide)

/-- The result of a deep-analysis call that did not abort (default
result when it did). -/
def okResult (x : Except String DeepForensics.DeepResult) : DeepForensics.DeepResult :=
  x.toOption.getD {}

/-- C8 (amended): only a *nonexistent* path short-circuits the deep
analyzer: the result then carries exactly the error note, with empty
findings, metadata, and hidden-content sections, and no detector output.
(An existing-but-unopenable path does **not** short-circuit; see the
counterexample.) -/
theorem C8_nonexistent_short_circuit (env : DeepForensics.Env) (d : String)
    (h : env.file_exists = false) :
    DeepForensics.analyze env d
      = Except.ok
          { filepath := env.filepath
            file_type := "unknown"
            analysis_depth := d
            security_issues := ["Fichier inexistant"]
            timestamp := env.timestamp } := by
  unfold DeepForensics.analyze
  rw [h]
  simp

/-- A concrete missing path. -/
def c8GoneEnv : DeepForensics.Env := { filepath := "/gone", file_exists := false }

/-- C8 (witness): the short-circuit theorem applied to a concrete
missing path. -/
theorem C8_nonexistent_short_circuit_witness :
    DeepForensics.analyze c8GoneEnv "FAST"
      = Except.ok
          { filepath := "/gone"
            file_type := "unknown"
            analysis_depth := "FAST"
            security_issues := ["Fichier inexistant"]
            timestamp := "" } :=
  C8_nonexistent_short_circuit c8GoneEnv "FAST" rfl

/-- An existing file whose open fails (e.g. permission denied). -/
def c8CexEnv : DeepForensics.Env :=
  { filepath := "/tmp/locked.xyz", file_exists := true, readOk := false,
    readErr := "Permission denied", statOk := true, fsMeta := { size := 5 }, size_bytes := 5 }

/-- C8 (counterexample): a path that exists but cannot be opened does
not yield an error-only result: the analysis completes, identification
records `"error"`, the hidden-content detector records its own error
entry, and the metadata section is fully populated — so detectors after
the failed open did run. -/
theorem C8_counterexample :
    (DeepForensics.analyze c8CexEnv "DEEP").isOk = true ∧
    (okResult (DeepForensics.analyze c8CexEnv "DEEP")).file_type = "error" ∧
    (okResult (DeepForensics.analyze c8CexEnv "DEEP")).metadata_extracted.filesystem
      = some { size := 5 } ∧
    (okResult (DeepForensics.analyze c8CexEnv "DEEP")).hidden_content.error
      = some "Permission denied" ∧
    (okResult (DeepForensics.analyze c8CexEnv "DEEP")).security_issues ≠ ["Fichier inexistant"] := by
  refine ⟨by decide, by decide, by decide, by decide, by decide⟩

/-- C9 (counterexample): `report.mp3.exe` has the claimed form
`name.ext1.ext2` with executable-like `ext2 = exe`, yet the scanner
produces no `double_extension` finding, because the regex requires the
middle extension to be three or four *letters* and `mp3` contains a
digit. -/
theorem C9_counterexample :
    Forensic.scan_double_extension "report.mp3.exe" = false ∧
    "report.mp3.exe".data = "report".data ++ '.' :: ("mp3".data ++ '.' :: "exe".data) ∧
    "exe".data ∈ Forensic.EXEC_EXTS :=
  ⟨by decide, by decide, by decide⟩

/-- C9 (amended): the content scanner produces a `double_extension`
finding exactly for (lower-cased) filenames ending in `.ext1.ext2` where
`ext1` is three or four lowercase ASCII letters and `ext2` is one of
`exe`, `bat`, `ps1`, `vbs`, `js`; in particular `invoice_2024.pdf.exe`
yields the finding and `invoice_2024.pdf` does not. -/
theorem C9_double_extension (name : List Char) :
    (Forensic.scanDoubleExtension name = true ↔
      ∃ a m e, name = a ++ '.' :: (m ++ '.' :: e) ∧ (m.length = 3 ∨ m.length = 4) ∧
        (∀ c ∈ m, Forensic.isLowerAlpha c = true) ∧ e ∈ Forensic.EXEC_EXTS) ∧
    Forensic.scan_double_extension "invoice_2024.pdf.exe" = true ∧
    Forensic.scan_double_extension "invoice_2024.pdf" = false :=
  ⟨scanDoubleExtension_iff name, by decide, by decide⟩

/-- C10: the requested depth hint influences nothing but the recorded
`analysis_depth` field: for the same environment (same file contents and
collaborator behaviour), analyses at any two depths agree after
overwriting that field. -/
theorem C10_depth_ignored (env : DeepForensics.Env) (d₁ d₂ : String) :
    DeepForensics.analyze env d₁
      = (DeepForensics.analyze env d₂).map (fun r => { r with analysis_depth := d₁ }) := by
  unfold DeepForensics.analyze
  by_cases h : env.file_exists = false
  · rw [if_pos h, if_pos h]
    rfl
  · rw [if_neg h, if_neg h]
    dsimp only
    rw [show Filtor.DeepForensics.detect_risk_indicators env
        { filepath := env.filepath,
          file_type := Filtor.DeepForensics.identify_file_type env.readOk env.content
            (Filtor.pathSuffixLower env.filepath) env.mimeGuess,
          analysis_depth := d₂,
          findings := Filtor.DeepForensics.dispatch env
            (Filtor.DeepForensics.identify_file_type env.readOk env.content
              (Filtor.pathSuffixLower env.filepath) env.mimeGuess),
          security_issues := [],
          metadata_extracted := Filtor.DeepForensics.extract_all_metadata env,
          hidden_content := Filtor.DeepForensics.detect_hidden_content env.readOk env.readErr env.content,
          risk_indicators := [],
          file_signature := Filtor.DeepForensics.analyze_file_signature env,
          timestamp := env.timestamp }
      = Filtor.DeepForensics.detect_risk_indicators env
        { filepath := env.filepath,
          file_type := Filtor.DeepForensics.identify_file_type env.readOk env.content
            (Filtor.pathSuffixLower env.filepath) env.mimeGuess,
          analysis_depth := d₁,
          findings := Filtor.DeepForensics.dispatch env
            (Filtor.DeepForensics.identify_file_type env.readOk env.content
              (Filtor.pathSuffixLower env.filepath) env.mimeGuess),
          security_issues := [],
          metadata_extracted := Filtor.DeepForensics.extract_all_metadata env,
          hidden_content := Filtor.DeepForensics.detect_hidden_content env.readOk env.readErr env.content,
          risk_indicators := [],
          file_signature := Filtor.DeepForensics.analyze_file_signature env,
          timestamp := env.timestamp } from rfl]
    cases hE : Filtor.DeepForensics.detect_risk_indicators env
        { filepath := env.filepath,
          file_type := Filtor.DeepForensics.identify_file_type env.readOk env.content
            (Filtor.pathSuffixLower env.filepath) env.mimeGuess,
          analysis_depth := d₁,
          findings := Filtor.DeepForensics.dispatch env
            (Filtor.DeepForensics.identify_file_type env.readOk env.content
              (Filtor.pathSuffixLower env.filepath) env.mimeGuess),
          security_issues := [],
          metadata_extracted := Filtor.DeepForensics.extract_all_metadata env,
          hidden_content := Filtor.DeepForensics.detect_hidden_content env.readOk env.readErr env.content,
          risk_indicators := [],
          file_signature := Filtor.DeepForensics.analyze_file_signature env,
          timestamp := env.timestamp } with
    | error e => rfl
    | ok inds => rfl

/-- C3: an exception inside the Office-structure analyzer (the zip
open/listing raising on a corrupt zip) is caught inside
`_analyze_office_deep` and recorded as the `error` entry of the office
finding record; the analysis is not aborted, and the cross-cutting
metadata-extraction and hidden-content sections are still fully
populated. -/
theorem C3_office_error_isolated (env : DeepForensics.Env) (d e : String)
    (hex : env.file_exists = true)
    (hnp : strContains (strLower (DeepForensics.identify_file_type env.readOk env.content
      (pathSuffixLower env.filepath) env.mimeGuess)) "pdf" = false)
    (hof : (strContains (strLower (DeepForensics.identify_file_type env.readOk env.content
        (pathSuffixLower env.filepath) env.mimeGuess)) "office"
      || [".docx", ".xlsx", ".pptx"].any (fun x => strContains (strLower env.filepath) x)) = true)
    (hzip : env.is_zipfile = true)
    (herr : env.zipNamelist = Except.error e)
    (hstat : env.statOk = true) :
    (DeepForensics.analyze env d).isOk = true ∧
    (okResult (DeepForensics.analyze env d)).findings.office
      = some { format := "OOXML (moderne)", error := some e } ∧
    (okResult (DeepForensics.analyze env d)).metadata_extracted.filesystem = some env.fsMeta ∧
    (okResult (DeepForensics.analyze env d)).hidden_content
      = DeepForensics.detect_hidden_content env.readOk env.readErr env.content := by
  have hoff : DeepForensics.analyze_office_deep env.is_zipfile env.zipNamelist env.coreXml
      env.relsLinks env.wordSummary env.xlSummary env.pptSummary
      = { format := "OOXML (moderne)", error := some e } := by
    unfold DeepForensics.analyze_office_deep
    rw [hzip, herr]
    simp
  have hdisp : DeepForensics.dispatch env
      (DeepForensics.identify_file_type env.readOk env.content
        (pathSuffixLower env.filepath) env.mimeGuess)
      = { office := some { format := "OOXML (moderne)", error := some e } } := by
    unfold DeepForensics.dispatch
    rw [if_neg (by simp [hnp]), if_pos hof, hoff]
  obtain ⟨l, hl⟩ : ∃ l, Filtor.DeepForensics.detect_risk_indicators env
      { filepath := env.filepath,
        file_type := Filtor.DeepForensics.identify_file_type env.readOk env.content
          (Filtor.pathSuffixLower env.filepath) env.mimeGuess,
        analysis_depth := d,
        findings := Filtor.DeepForensics.dispatch env
          (Filtor.DeepForensics.identify_file_type env.readOk env.content
            (Filtor.pathSuffixLower env.filepath) env.mimeGuess),
        security_issues := [],
        metadata_extracted := Filtor.DeepForensics.extract_all_metadata env,
        hidden_content := Filtor.DeepForensics.detect_hidden_content env.readOk env.readErr env.content,
        risk_indicators := [],
        file_signature := Filtor.DeepForensics.analyze_file_signature env,
        timestamp := env.timestamp } = Except.ok l := by
    unfold DeepForensics.detect_risk_indicators
    rw [show (
      { filepath := env.filepath,
        file_type := Filtor.DeepForensics.identify_file_type env.readOk env.content
          (Filtor.pathSuffixLower env.filepath) env.mimeGuess,
        analysis_depth := d,
        findings := Filtor.DeepForensics.dispatch env
          (Filtor.DeepForensics.identify_file_type env.readOk env.content
            (Filtor.pathSuffixLower env.filepath) env.mimeGuess),
        security_issues := [],
        metadata_extracted := Filtor.DeepForensics.extract_all_metadata env,
        hidden_content := Filtor.DeepForensics.detect_hidden_content env.readOk env.readErr env.content,
        risk_indicators := [],
        file_signature := Filtor.DeepForensics.analyze_file_signature env,
        timestamp := env.timestamp } : Filtor.DeepForensics.DeepResult).findings.archive = none from by
      dsimp only
      rw [hdisp]]
    exact ⟨_, rfl⟩
  have hana : DeepForensics.analyze env d = Except.ok
      { filepath := env.filepath,
        file_type := Filtor.DeepForensics.identify_file_type env.readOk env.content
          (Filtor.pathSuffixLower env.filepath) env.mimeGuess,
        analysis_depth := d,
        findings := Filtor.DeepForensics.dispatch env
          (Filtor.DeepForensics.identify_file_type env.readOk env.content
            (Filtor.pathSuffixLower env.filepath) env.mimeGuess),
        security_issues := Filtor.DeepForensics.security_checks (Filtor.pathSuffixLower env.filepath)
          { filepath := env.filepath,
            file_type := Filtor.DeepForensics.identify_file_type env.readOk env.content
              (Filtor.pathSuffixLower env.filepath) env.mimeGuess,
            analysis_depth := d,
            findings := Filtor.DeepForensics.dispatch env
              (Filtor.DeepForensics.identify_file_type env.readOk env.content
                (Filtor.pathSuffixLower env.filepath) env.mimeGuess),
            security_issues := [],
            metadata_extracted := Filtor.DeepForensics.extract_all_metadata env,
            hidden_content := Filtor.DeepForensics.detect_hidden_content env.readOk env.readErr env.content,
            risk_indicators := [],
            file_signature := Filtor.DeepForensics.analyze_file_signature env,
            timestamp := env.timestamp },
        metadata_extracted := Filtor.DeepForensics.extract_all_metadata env,
        hidden_content := Filtor.DeepForensics.detect_hidden_content env.readOk env.readErr env.content,
        risk_indicators := l,
        file_signature := Filtor.DeepForensics.analyze_file_signature env,
        timestamp := env.timestamp } := by
    unfold DeepForensics.analyze
    rw [hex]
    rw [if_neg (by simp)]
    dsimp only
    rw [hl]
  rw [hana]
  refine ⟨rfl, ?_, ?_, rfl⟩
  · show (Filtor.DeepForensics.dispatch env
      (Filtor.DeepForensics.identify_file_type env.readOk env.content
        (Filtor.pathSuffixLower env.filepath) env.mimeGuess)).office = _
    rw [hdisp]
  · show (Filtor.DeepForensics.extract_all_metadata env).filesystem = _
    unfold DeepForensics.extract_all_metadata
    rw [hstat]
    simp


/-- A corrupt `.docx`: ZIP local-file-header magic, `is_zipfile` true,
but the zip open raises. -/
def c3WitnessEnv : DeepForensics.Env :=
  { filepath := "/data/report.docx", file_exists := true, readOk := true,
    content := [0x50, 0x4B, 0x03, 0x04], is_zipfile := true,
    zipNamelist := .error "File is not a zip file", size_bytes := 4 }

/-- C3 (witness): the isolation theorem applied to the concrete corrupt
`.docx` environment. -/
theorem C3_office_error_isolated_witness :
    (DeepForensics.analyze c3WitnessEnv "DEEP").isOk = true ∧
    (okResult (DeepForensics.analyze c3WitnessEnv "DEEP")).findings.office
      = some { format := "OOXML (moderne)", error := some "File is not a zip file" } ∧
    (okResult (DeepForensics.analyze c3WitnessEnv "DEEP")).metadata_extracted.filesystem
      = some c3WitnessEnv.fsMeta ∧
    (okResult (DeepForensics.analyze c3WitnessEnv "DEEP")).hidden_content
      = DeepForensics.detect_hidden_content c3WitnessEnv.readOk c3WitnessEnv.readErr
          c3WitnessEnv.content :=
  C3_office_error_isolated c3WitnessEnv "DEEP" "File is not a zip file" rfl
    (by decide) (by decide) rfl rfl rfl

/-- C5: file-type identification tests the catalog's byte-prefix
signatures against the (16-byte) header and returns the category of the
first matching catalog entry; a `%PDF` header identifies as `pdf` and a
PNG header as `png` whatever follows; and when no signature matches, the
fallback (a `type/subtype` MIME guess or an `unknown (ext: …)` string)
is never a catalog category. -/
theorem C5_identify_first_match (rest1 rest2 content content4 : List ℕ)
    (ext1 ext2 ext3 ext4 : String) (m1 m2 mime mime4 : Option String)
    (pre post : List (String × List (List ℕ))) (c : String) (sigs : List (List ℕ))
    (hnone : ∀ p ∈ DeepForensics.FILE_SIGNATURES, ∀ sig ∈ p.2,
      sig.isPrefixOf (content.take 16) = false)
    (hmime : ∀ mm, mime = some mm → strContains mm "/" = true)
    (hsplit : DeepForensics.FILE_SIGNATURES = pre ++ (c, sigs) :: post)
    (hpre : ∀ p ∈ pre, ∀ sig ∈ p.2, sig.isPrefixOf (content4.take 16) = false)
    (hmatch : sigs.any (fun sig => sig.isPrefixOf (content4.take 16)) = true) :
    DeepForensics.identify_file_type true ([0x25, 0x50, 0x44, 0x46] ++ rest1) ext1 m1 = "pdf" ∧
    DeepForensics.identify_file_type true
      ([0x89, 0x50, 0x4E, 0x47, 0x0D, 0x0A, 0x1A, 0x0A] ++ rest2) ext2 m2 = "png" ∧
    DeepForensics.identify_file_type true content4 ext4 mime4 = c ∧
    DeepForensics.identify_file_type true content ext3 mime
      ∉ DeepForensics.FILE_SIGNATURES.map Prod.fst := by
  refine ⟨?_, ?_, ?_, ?_⟩
  · simp [DeepForensics.identify_file_type, DeepForensics.FILE_SIGNATURES, List.isPrefixOf]
  · simp [DeepForensics.identify_file_type, DeepForensics.FILE_SIGNATURES, List.isPrefixOf]
  · unfold DeepForensics.identify_file_type
    rw [if_neg (by simp)]
    rw [hsplit, List.find?_append]
    have h1 : pre.find? (fun p => p.2.any (fun sig => sig.isPrefixOf (content4.take 16)))
        = none := by
      rw [List.find?_eq_none]
      intro p hp
      simp only [Bool.not_eq_true, List.any_eq_false]
      intro sig hs
      exact hpre p hp sig hs
    have h2 : List.find? (fun p => p.2.any (fun sig => sig.isPrefixOf (content4.take 16)))
        ((c, sigs) :: post) = some (c, sigs) := List.find?_cons_of_pos post hmatch
    rw [h1, h2]
    simp
  · unfold DeepForensics.identify_file_type
    rw [if_neg (by simp)]
    have hfind : DeepForensics.FILE_SIGNATURES.find?
        (fun p => p.2.any (fun sig => sig.isPrefixOf (content.take 16))) = none := by
      rw [List.find?_eq_none]
      intro p hp
      simp only [Bool.not_eq_true, List.any_eq_false]
      intro sig hs
      exact hnone p hp sig hs
    rw [hfind]
    have hcats_slash : ∀ cat ∈ DeepForensics.FILE_SIGNATURES.map Prod.fst,
        strContains cat "/" = false := by decide
    have hcats_space : ∀ cat ∈ DeepForensics.FILE_SIGNATURES.map Prod.fst,
        strContains cat " " = false := by decide
    cases hm : mime with
    | some mm =>
      intro hmem
      have h1 := hcats_slash _ hmem
      have h2 := hmime mm hm
      rw [h1] at h2
      exact Bool.false_ne_true h2
    | none =>
      intro hmem
      have h1 := hcats_space _ hmem
      have h2 : strContains ("unknown (ext: " ++ ext3 ++ ")") " " = true := by
        unfold strContains
        apply (containsSeq_eq_true_iff _ _).mpr
        refine ⟨"unknown".data, "(ext: ".data ++ ext3.data ++ ")".data, ?_⟩
        rw [show ("unknown (ext: " ++ ext3 ++ ")").data
            = "unknown (ext: ".data ++ ext3.data ++ ")".data from by
          simp [String.data_append]]
        rw [show ("unknown (ext: ").data = "unknown".data ++ ' ' :: "(ext: ".data from by decide]
        simp
      rw [h1] at h2
      exact Bool.false_ne_true h2


/-- C5 (witness): the identification theorem at concrete headers — a
bare `%PDF` header, a bare PNG header, the catalog split at its first
entry, and the all-zero header with no MIME guess. -/
theorem C5_identify_first_match_witness :
    DeepForensics.identify_file_type true ([0x25, 0x50, 0x44, 0x46] ++ []) ".x" none = "pdf" ∧
    DeepForensics.identify_file_type true
      ([0x89, 0x50, 0x4E, 0x47, 0x0D, 0x0A, 0x1A, 0x0A] ++ []) ".y" none = "png" ∧
    DeepForensics.identify_file_type true [0x25, 0x50, 0x44, 0x46] ".z" none = "pdf" ∧
    DeepForensics.identify_file_type true [0] ".bin" none
      ∉ DeepForensics.FILE_SIGNATURES.map Prod.fst :=
  C5_identify_first_match [] [] [0] [0x25, 0x50, 0x44, 0x46] ".x" ".y" ".bin" ".z"
    none none none none [] DeepForensics.FILE_SIGNATURES.tail "pdf" [[0x25, 0x50, 0x44, 0x46]]
    (by decide) (fun mm h => nomatch h) rfl (by decide) (by decide)

/-- The polyglot field of a successful hidden-content scan, as a
function of the whole-content category scan. -/
theorem detect_hidden_polyglot_eq (readErr : String) (content : List ℕ) :
    (DeepForensics.detect_hidden_content true readErr content).polyglot
      = decide (1 < (DeepForensics.foundCats content).dedup.length) := rfl

/-- C6 (amended): the hidden-content detector flags polyglot iff two or
more distinct signature categories occur anywhere in the *entire* file
content — the scan is `sig in content`, not bounded by the 10,000-offset
window (which applies only to the embedded-file loop) — and the
(deduplicated) list of matched categories is reported alongside exactly
when the flag is set. -/
theorem C6_polyglot_spec (readErr : String) (content : List ℕ) (c : String) :
    ((DeepForensics.detect_hidden_content true readErr content).polyglot = true ↔
      ∃ c₁ c₂, c₁ ≠ c₂ ∧ catOccurs c₁ content ∧ catOccurs c₂ content) ∧
    (DeepForensics.detect_hidden_content true readErr content).signatures
      = (if 1 < (DeepForensics.foundCats content).dedup.length
         then some ((DeepForensics.foundCats content).dedup) else none) ∧
    (c ∈ (DeepForensics.foundCats content).dedup ↔ catOccurs c content) := by
  refine ⟨?_, rfl, (List.mem_dedup).trans mem_foundCats⟩
  rw [detect_hidden_polyglot_eq, decide_eq_true_eq, one_lt_dedup_length_iff]
  simp only [mem_foundCats]

/-- A PDF header, 10,000 zero-padding bytes, then a ZIP signature at
offset 10,004 — beyond the analyzer's 10,000-offset bounded window. -/
def c6Content : List ℕ :=
  [0x25, 0x50, 0x44, 0x46] ++ (List.replicate 10000 0 ++ [0x50, 0x4B, 0x03, 0x04])

/-- C6 (counterexample): `c6Content` is flagged polyglot although, within
the first 10,000-byte scan window, only the single category `pdf`
occurs — the second signature sits beyond the bounded window, so the
claim's "within the bounded scan window" reading is false of the code. -/
theorem C6_counterexample :
    (DeepForensics.detect_hidden_content true "" c6Content).polyglot = true ∧
    (DeepForensics.foundCats (c6Content.take 10004)).dedup = ["pdf"] := by
  constructor
  · rw [detect_hidden_polyglot_eq, decide_eq_true_eq, one_lt_dedup_length_iff]
    refine ⟨"pdf", "zip", by decide, ?_, ?_⟩
    · apply mem_foundCats.mpr
      refine ⟨[[0x25, 0x50, 0x44, 0x46]], by decide, [0x25, 0x50, 0x44, 0x46], by decide,
        [], List.replicate 10000 0 ++ [0x50, 0x4B, 0x03, 0x04], ?_⟩
      unfold c6Content
      rw [List.nil_append]
    · apply mem_foundCats.mpr
      refine ⟨[[0x50, 0x4B, 0x03, 0x04], [0x50, 0x4B, 0x05, 0x06], [0x50, 0x4B, 0x07, 0x08]],
        by decide, [0x50, 0x4B, 0x03, 0x04], by decide,
        [0x25, 0x50, 0x44, 0x46] ++ List.replicate 10000 0, [], ?_⟩
      unfold c6Content
      rw [List.append_nil, List.append_assoc]
  · have htake : c6Content.take 10004 = [0x25, 0x50, 0x44, 0x46] ++ List.replicate 10000 0 := by
      unfold c6Content
      rw [List.take_append_eq_append_take, List.take_append_eq_append_take, List.take_replicate]
      rw [show List.take 10004 [0x25, 0x50, 0x44, 0x46] = [0x25, 0x50, 0x44, 0x46] from by decide]
      norm_num
    rw [htake]
    have hpad : ∀ sig : List ℕ, sig.length ≤ 16 → sig.any (fun b => b ≠ 0) = true →
        containsSeq sig ([0x25, 0x50, 0x44, 0x46] ++ List.replicate 10000 0)
          = containsSeq sig ([0x25, 0x50, 0x44, 0x46] ++ List.replicate 16 0) :=
      fun sig h1 h2 => containsSeq_append_replicate_zero sig _ h1 (by norm_num) h2
    have hpdf : containsSeq [0x25, 0x50, 0x44, 0x46]
        ([0x25, 0x50, 0x44, 0x46] ++ List.replicate 10000 0) = true := by
      rw [hpad _ (by decide) (by decide)]
      decide
    have hpk34 : containsSeq [0x50, 0x4B, 0x03, 0x04]
        ([0x25, 0x50, 0x44, 0x46] ++ List.replicate 10000 0) = false := by
      rw [hpad _ (by decide) (by decide)]
      decide
    have hpk56 : containsSeq [0x50, 0x4B, 0x05, 0x06]
        ([0x25, 0x50, 0x44, 0x46] ++ List.replicate 10000 0) = false := by
      rw [hpad _ (by decide) (by decide)]
      decide
    have hpk78 : containsSeq [0x50, 0x4B, 0x07, 0x08]
        ([0x25, 0x50, 0x44, 0x46] ++ List.replicate 10000 0) = false := by
      rw [hpad _ (by decide) (by decide)]
      decide
    have hrar : containsSeq [0x52, 0x61, 0x72, 0x21, 0x1a, 0x07]
        ([0x25, 0x50, 0x44, 0x46] ++ List.replicate 10000 0) = false := by
      rw [hpad _ (by decide) (by decide)]
      decide
    have hgz : containsSeq [0x1f, 0x8b]
        ([0x25, 0x50, 0x44, 0x46] ++ List.replicate 10000 0) = false := by
      rw [hpad _ (by decide) (by decide)]
      decide
    have hbz : containsSeq [0x42, 0x5A, 0x68]
        ([0x25, 0x50, 0x44, 0x46] ++ List.replicate 10000 0) = false := by
      rw [hpad _ (by decide) (by decide)]
      decide
    have h7z : containsSeq [0x37, 0x7a, 0xbc, 0xaf, 0x27, 0x1c]
        ([0x25, 0x50, 0x44, 0x46] ++ List.replicate 10000 0) = false := by
      rw [hpad _ (by decide) (by decide)]
      decide
    have hpng : containsSeq [0x89, 0x50, 0x4E, 0x47, 0x0D, 0x0A, 0x1A, 0x0A]
        ([0x25, 0x50, 0x44, 0x46] ++ List.replicate 10000 0) = false := by
      rw [hpad _ (by decide) (by decide)]
      decide
    have hjpg : containsSeq [0xff, 0xd8, 0xff]
        ([0x25, 0x50, 0x44, 0x46] ++ List.replicate 10000 0) = false := by
      rw [hpad _ (by decide) (by decide)]
      decide
    have hgif87 : containsSeq [0x47, 0x49, 0x46, 0x38, 0x37, 0x61]
        ([0x25, 0x50, 0x44, 0x46] ++ List.replicate 10000 0) = false := by
      rw [hpad _ (by decide) (by decide)]
      decide
    have hgif89 : containsSeq [0x47, 0x49, 0x46, 0x38, 0x39, 0x61]
        ([0x25, 0x50, 0x44, 0x46] ++ List.replicate 10000 0) = false := by
      rw [hpad _ (by decide) (by decide)]
      decide
    have hmz : containsSeq [0x4D, 0x5A]
        ([0x25, 0x50, 0x44, 0x46] ++ List.replicate 10000 0) = false := by
      rw [hpad _ (by decide) (by decide)]
      decide
    have helf : containsSeq [0x7f, 0x45, 0x4C, 0x46]
        ([0x25, 0x50, 0x44, 0x46] ++ List.replicate 10000 0) = false := by
      rw [hpad _ (by decide) (by decide)]
      decide
    have hsqlite : containsSeq [0x53, 0x51, 0x4C, 0x69, 0x74, 0x65, 0x20, 0x66, 0x6F, 0x72,
        0x6D, 0x61, 0x74, 0x20, 0x33, 0x00]
        ([0x25, 0x50, 0x44, 0x46] ++ List.replicate 10000 0) = false := by
      rw [hpad _ (by decide) (by decide)]
      decide
    have hole : containsSeq [0xd0, 0xcf, 0x11, 0xe0, 0xa1, 0xb1, 0x1a, 0xe1]
        ([0x25, 0x50, 0x44, 0x46] ++ List.replicate 10000 0) = false := by
      rw [hpad _ (by decide) (by decide)]
      decide
    unfold DeepForensics.foundCats DeepForensics.FILE_SIGNATURES
    simp only [List.flatMap_cons, List.flatMap_nil, List.filter_cons, List.filter_nil,
      hpdf, hpk34, hpk56, hpk78, hrar, hgz, hbz, h7z, hpng, hjpg, hgif87, hgif89,
      hmz, helf, hsqlite, hole]
    decide

/-- An environment for a 100-byte archive at `/data/x.zip` (used to probe
`_detect_risk_indicators` in isolation). -/
def c7ArchEnv : DeepForensics.Env := { filepath := "/data/x.zip", size_bytes := 100 }

/-- The archive record of a ZIP with `n` entries and compression ratio `r`. -/
def c7ArchRec (r : ℚ) (n : ℕ) : DeepForensics.ArchiveAnalysis :=
  { type_tag := some "ZIP", file_count := n, compression_ratio := r }

/-- An analysis result whose findings carry archive record `c7ArchRec r n`. -/
def c7Arch (r : ℚ) (n : ℕ) : DeepForensics.DeepResult :=
  { filepath := "/data/x.zip", findings := { archive := some (c7ArchRec r n) } }

/-- An empty ZIP archive: just the 22-byte end-of-central-directory
record; `zipfile.is_zipfile` accepts it and `infolist()` returns no
entries. -/
def c7EmptyZipEnv : DeepForensics.Env :=
  { filepath := "/data/empty.zip", file_exists := true, readOk := true,
    content := [0x50, 0x4B, 0x05, 0x06] ++ List.replicate 18 0,
    is_zipfile := true, zipInfolist := .ok [], size_bytes := 22 }

/-- When the archive findings carry a compression ratio of exactly 0
(the initial value, never overwritten on the TAR path or on an empty
ZIP), `_detect_risk_indicators` takes the `ratio < 0.01` branch and the
f-string computes `1/ratio`: an uncaught `ZeroDivisionError`. -/
theorem detect_risk_indicators_zero_ratio (env : DeepForensics.Env)
    (r : DeepForensics.DeepResult) (a : DeepForensics.ArchiveAnalysis)
    (ha : r.findings.archive = some a) (h0 : a.compression_ratio = 0) :
    DeepForensics.detect_risk_indicators env r
      = Except.error "ZeroDivisionError: float division by zero" := by
  unfold DeepForensics.detect_risk_indicators
  rw [ha]
  dsimp only
  rw [h0]
  norm_num

/-- C7: the ratio-0.005 / ratio-0.5 halves of the claim hold (flagged
with the 200:1 message; not flagged), but "for every archive whose
entries are enumerated" does not: the ratio is only computed on the ZIP
path when the total uncompressed size is positive, so an empty ZIP (and
every TAR/GZIP archive) keeps the initial ratio 0, and the
risk-indicator pass then divides by zero while formatting the message —
an uncaught `ZeroDivisionError` that aborts the whole `analyze` call
instead of flagging the archive. -/
theorem C7_archive_bomb_crash :
    DeepForensics.detect_risk_indicators c7ArchEnv (c7Arch (1/200) 3)
      = Except.ok ["Very high compression ratio: 200:1 (possible zip bomb)"] ∧
    DeepForensics.detect_risk_indicators c7ArchEnv (c7Arch (1/2) 3) = Except.ok [] ∧
    (DeepForensics.analyze_archive_deep ".zip" true (Except.ok []) (Except.ok [])).compression_ratio
      = 0 ∧
    DeepForensics.analyze c7EmptyZipEnv "DEEP"
      = Except.error "ZeroDivisionError: float division by zero" := by
  refine ⟨?_, ?_, ?_, ?_⟩
  · unfold DeepForensics.detect_risk_indicators c7Arch c7ArchRec c7ArchEnv
    dsimp only
    rw [if_pos (show (1 : ℚ)/200 < 1/100 from by norm_num),
        if_neg (show ¬((1 : ℚ)/200 = 0) from by norm_num),
        show pyRound (1 / ((1 : ℚ)/200)) = 200 from by
          rw [show (1 : ℚ) / ((1 : ℚ)/200) = 200 from by norm_num]
          unfold pyRound
          rw [show ⌊(200 : ℚ)⌋ = 200 from by norm_num]
          norm_num]
    rfl
  · unfold DeepForensics.detect_risk_indicators c7Arch c7ArchRec c7ArchEnv
    dsimp only
    rw [if_neg (show ¬((1 : ℚ)/2 < 1/100) from by norm_num)]
    rfl
  · rfl
  ·
    have hft : DeepForensics.identify_file_type c7EmptyZipEnv.readOk c7EmptyZipEnv.content
        (pathSuffixLower c7EmptyZipEnv.filepath) c7EmptyZipEnv.mimeGuess = "zip" := by decide
    have herr : DeepForensics.detect_risk_indicators c7EmptyZipEnv
        { filepath := c7EmptyZipEnv.filepath,
          file_type := Filtor.DeepForensics.identify_file_type c7EmptyZipEnv.readOk
            c7EmptyZipEnv.content (Filtor.pathSuffixLower c7EmptyZipEnv.filepath)
            c7EmptyZipEnv.mimeGuess,
          analysis_depth := "DEEP",
          findings := Filtor.DeepForensics.dispatch c7EmptyZipEnv
            (Filtor.DeepForensics.identify_file_type c7EmptyZipEnv.readOk c7EmptyZipEnv.content
              (Filtor.pathSuffixLower c7EmptyZipEnv.filepath) c7EmptyZipEnv.mimeGuess),
          security_issues := [],
          metadata_extracted := Filtor.DeepForensics.extract_all_metadata c7EmptyZipEnv,
          hidden_content := Filtor.DeepForensics.detect_hidden_content c7EmptyZipEnv.readOk
            c7EmptyZipEnv.readErr c7EmptyZipEnv.content,
          risk_indicators := [],
          file_signature := Filtor.DeepForensics.analyze_file_signature c7EmptyZipEnv,
          timestamp := c7EmptyZipEnv.timestamp }
        = Except.error "ZeroDivisionError: float division by zero" := by
      refine detect_risk_indicators_zero_ratio _ _
        (DeepForensics.analyze_archive_deep ".zip" true (Except.ok []) (Except.ok [])) ?_ rfl
      show (Filtor.DeepForensics.dispatch c7EmptyZipEnv
        (Filtor.DeepForensics.identify_file_type c7EmptyZipEnv.readOk c7EmptyZipEnv.content
          (Filtor.pathSuffixLower c7EmptyZipEnv.filepath) c7EmptyZipEnv.mimeGuess)).archive = _
      rw [hft]
      unfold DeepForensics.dispatch
      rw [if_neg (by decide), if_neg (by decide), if_pos (by decide)]
      rfl
    unfold DeepForensics.analyze
    rw [if_neg (by decide)]
    dsimp only
    rw [herr]

end Filtor
